import Mathlib

/-!
# Verification of the weather CLI (`src/app.js`)

Shallow embedding of the `WeatherApp` class.  JavaScript numbers are
modelled as exact rationals (`ℚ`), JS strings as Lean `String`, parsed
JSON values as an explicit `Json` AST (the platform's `JSON.parse` /
`JSON.stringify` pair is modelled as the identity on that AST: a file
either is missing, holds text that fails to parse, or holds the parsed
value).  The runtime's locale date formatting (`toLocaleDateString`)
is a parameter of the forecast functions, since it depends on the host
timezone and locale.  Fallible operations return `Except`/`Option`;
a JS `throw` caught by a surrounding `try` is modelled by the branch
the `catch` produces.
-/

set_option autoImplicit false

namespace WeatherApp

/-- A parsed JSON value (the result of a successful `JSON.parse`). -/
inductive Json where
  | null
  | bool (b : Bool)
  | num (q : ℚ)
  | str (s : String)
  | arr (elems : List Json)
  | obj (fields : List (String × Json))

/-- State of a local backing file: absent, present but not valid JSON,
or present with a parsed value. -/
inductive FileContent (α : Type) where
  | missing
  | malformed
  | content (val : α)
deriving DecidableEq

/-- Outcome of one `axios.get` call: a 2xx response with parsed body,
an HTTP error response carrying its status (axios rejects, and
`error.response.status` is that status), or a network-level error
(axios rejects with no `error.response`). -/
inductive HttpOutcome (α : Type) where
  | success (data : α)
  | httpError (status : Nat)
  | networkError
deriving DecidableEq

/-- The three error messages thrown by the weather client, named after
the spec's taxonomy (`都市が見つかりません…` / `APIキーが無効です…` /
`…取得に失敗しました`). -/
inductive WeatherError where
  | cityNotFound
  | invalidCredential
  | fetchFailed
deriving DecidableEq

/-- `getCurrentWeather` (src/app.js:61-81): returns `response.data` on
success; in the `catch`, status 404 throws city-not-found, status 401
throws invalid-key, anything else (other statuses, or a network error
with no response) throws the generic fetch failure. -/
def getCurrentWeather {α : Type} (resp : HttpOutcome α) : Except WeatherError α :=
  match resp with
  | .success data => .ok data
  | .httpError status =>
      if status = 404 then .error .cityNotFound
      else if status = 401 then .error .invalidCredential
      else .error .fetchFailed
  | .networkError => .error .fetchFailed

/-- `getForecast` (src/app.js:83-98): returns `response.data` on
success; the `catch` throws the same generic failure for every error,
inspecting nothing. -/
def getForecast {α : Type} (resp : HttpOutcome α) : Except WeatherError α :=
  match resp with
  | .success data => .ok data
  | .httpError _ => .error .fetchFailed
  | .networkError => .error .fetchFailed

/-- JS property access `value.key` on a parsed JSON value, as used by
`config.apiKey`: a string-keyed lookup on an object, `undefined`
(`none`) on a non-object.  (On `null` the access throws, but the
caller's `try` catches that and also yields the absent result.) -/
def jsGetField (j : Json) (key : String) : Option Json :=
  match j with
  | .obj fields => (fields.find? (fun p => p.1 == key)).map (·.2)
  | _ => none

/-- `loadApiKey` (src/app.js:14-25): if the config file exists, parse
it and return `config.apiKey`; a parse failure (or the access throwing)
is caught and `null` is returned; a missing file returns `null`.  The
function is total: no error escapes. -/
def loadApiKey (configFile : FileContent Json) : Option Json :=
  match configFile with
  | .missing => none
  | .malformed => none
  | .content config => jsGetField config "apiKey"

/-- The JSON value `JSON.stringify(favoriteCities, null, 2)` denotes:
an array of strings. -/
def encodeFavorites (cities : List String) : Json :=
  .arr (cities.map .str)

/-- `saveFavoriteCities` (src/app.js:56-59): overwrites the favorites
file with the full list serialized as a JSON array. -/
def saveFavoriteCities (cities : List String) : FileContent Json :=
  .content (encodeFavorites cities)

/-- `loadFavoriteCities` (src/app.js:44-54) as the parsed value it
returns: the file's parsed JSON if present and well formed (the code
returns `JSON.parse`'s result unchecked), and the default `[]`
(an empty array) if the file is missing or parsing throws. -/
def loadFavoriteCities (favoritesFile : FileContent Json) : Json :=
  match favoritesFile with
  | .missing => .arr []
  | .malformed => .arr []
  | .content j => j

/-- Reads a list of parsed JSON values back as the JS strings they
denote (`some` exactly when every element is a string). -/
def decodeStrings : List Json → Option (List String)
  | [] => some []
  | .str s :: rest => (decodeStrings rest).map (s :: ·)
  | _ :: _ => none

/-- Reads a parsed JSON value back as the JS array-of-strings it
denotes (`some` exactly when every element is a string, as is the case
for every value `saveFavoriteCities` writes). -/
def decodeFavorites (j : Json) : Option (List String) :=
  match j with
  | .arr elems => decodeStrings elems
  | _ => none

/-- The session state the favorites operations touch: the in-memory
`this.favoriteCities` array and the `favorite_cities.json` file. -/
structure AppState where
  favoriteCities : List String
  favoritesFile : FileContent Json

/-- Outcome of `addFavoriteCity` (which console message ran). -/
inductive AddOutcome where
  | added
  | alreadyPresent
deriving DecidableEq

/-- Outcome of `removeFavoriteCity` (which console message ran). -/
inductive RemoveOutcome where
  | removed
  | notFound
deriving DecidableEq

/-- `addFavoriteCity` (src/app.js:159-167): `includes` is an exact
(case-sensitive, unnormalized) string containment test; when absent the
city is `push`ed to the end and the list is flushed to the file;
otherwise nothing changes. -/
def addFavoriteCity (s : AppState) (city : String) : AppState × AddOutcome :=
  if !s.favoriteCities.contains city then
    let favs := s.favoriteCities ++ [city]
    ({ favoriteCities := favs, favoritesFile := saveFavoriteCities favs }, .added)
  else
    (s, .alreadyPresent)

/-- `removeFavoriteCity` (src/app.js:169-178): `indexOf(city) > -1`
holds exactly when the list contains `city`; `splice(index, 1)` at the
first-occurrence index removes the first occurrence (= `List.erase`),
then the list is flushed; otherwise state and file are untouched. -/
def removeFavoriteCity (s : AppState) (city : String) : AppState × RemoveOutcome :=
  if s.favoriteCities.contains city then
    let favs := s.favoriteCities.erase city
    ({ favoriteCities := favs, favoritesFile := saveFavoriteCities favs }, .removed)
  else
    (s, .notFound)

/-- The whitespace class of JS `String.prototype.trim` (restricted to
the characters relevant here; the claims do not depend on the exact
Unicode set). -/
def isJsWs (c : Char) : Bool :=
  c == ' ' || c == '\t' || c == '\n' || c == '\r' || c == '\x0b' || c == '\x0c'

/-- JS `city.trim()`: drop leading and trailing whitespace. -/
def jsTrim (s : String) : String :=
  ⟨((s.data.dropWhile isJsWs).reverse.dropWhile isJsWs).reverse⟩

/-- `handleAddFavorite` (src/app.js:268-273): prompt for a city; if the
trimmed input is truthy (non-empty) add the trimmed string, else do
nothing. -/
def handleAddFavorite (s : AppState) (input : String) : AppState :=
  if jsTrim input ≠ "" then (addFavoriteCity s (jsTrim input)).1 else s

/-- JS `x.toFixed(1)` as a rational: round `x` to the nearest tenth,
ties toward the larger value (ECMA-262: "pick the larger n"). -/
def toFixed1 (q : ℚ) : ℚ :=
  ((⌊q * 10 + 1/2⌋ : ℤ) : ℚ) / 10

/-- `Math.min(...temps)` for the nonempty temperature lists the
aggregator builds (the `[]` case, JS `Infinity`, never arises: every
bucket is created carrying its first temperature). -/
def listMin (l : List ℚ) : ℚ :=
  match l with
  | [] => 0
  | h :: t => t.foldl min h

/-- `Math.max(...temps)`, same proviso as `listMin`. -/
def listMax (l : List ℚ) : ℚ :=
  match l with
  | [] => 0
  | h :: t => t.foldl max h

/-- One 3-hour sample of `data.list`: `dt` (epoch seconds) plus the
fields `displayForecast` reads (`main.temp`, `weather[0].description`,
`main.humidity`, `wind.speed`). -/
structure ForecastEntry where
  dt : Int
  temp : ℚ
  description : String
  humidity : ℚ
  windSpeed : ℚ
deriving DecidableEq

/-- One value of the `dailyForecasts` object (src/app.js:131-139). -/
structure DailyForecast where
  date : String
  temps : List ℚ
  weather : String
  humidity : ℚ
  windSpeed : ℚ
deriving DecidableEq

/-- The date key of an entry:
`new Date(item.dt * 1000).toLocaleDateString('ja-JP')`, with the
locale/timezone-dependent formatter passed in as `toLocaleDateString`.
(The produced keys contain `/`, so they are never array-index-like and
JS object insertion order is first-seen order.) -/
def entryKey (toLocaleDateString : Int → String) (e : ForecastEntry) : String :=
  toLocaleDateString e.dt

/-- The body of the `forEach` in `displayForecast` (src/app.js:127-142):
if no bucket for the entry's date key exists, create one capturing the
entry's description/humidity/wind; in both cases push the entry's
temperature onto that bucket.  The object is modelled as a list of
buckets in insertion order. -/
def insertForecastEntry (toLocaleDateString : Int → String)
    (acc : List DailyForecast) (item : ForecastEntry) : List DailyForecast :=
  let dateKey := entryKey toLocaleDateString item
  if acc.any (fun b => b.date == dateKey) then
    acc.map (fun b => if b.date == dateKey then { b with temps := b.temps ++ [item.temp] } else b)
  else
    acc ++ [{ date := dateKey, temps := [item.temp], weather := item.description,
              humidity := item.humidity, windSpeed := item.windSpeed }]

/-- The fully built `dailyForecasts` object of `displayForecast`, as
its `Object.values` in insertion order. -/
def dailyForecasts (toLocaleDateString : Int → String)
    (entries : List ForecastEntry) : List DailyForecast :=
  entries.foldl (insertForecastEntry toLocaleDateString) []

/-- One printed block of the forecast output (src/app.js:144-154),
with the two `toFixed(1)` temperatures kept as rationals. -/
structure RenderedDay where
  date : String
  minTemp : ℚ
  maxTemp : ℚ
  weather : String
  humidity : ℚ
  windSpeed : ℚ
deriving DecidableEq

/-- The body of the second `forEach`: `Math.min`/`Math.max` over the
bucket's temps, each shown to one decimal. -/
def renderDailyForecast (b : DailyForecast) : RenderedDay :=
  { date := b.date, minTemp := toFixed1 (listMin b.temps), maxTemp := toFixed1 (listMax b.temps),
    weather := b.weather, humidity := b.humidity, windSpeed := b.windSpeed }

/-- `displayForecast` (src/app.js:121-157): group, take the first 5
buckets (`Object.values(...).slice(0, 5)`), render each. -/
def displayForecast (toLocaleDateString : Int → String)
    (entries : List ForecastEntry) : List RenderedDay :=
  ((dailyForecasts toLocaleDateString entries).take 5).map renderDailyForecast

/-- The date keys in first-seen order (the specification-side
description of the bucket keys; compare `dailyForecasts`). -/
def firstSeenKeys (toLocaleDateString : Int → String)
    (entries : List ForecastEntry) : List String :=
  entries.foldl
    (fun ks e =>
      if entryKey toLocaleDateString e ∈ ks then ks
      else ks ++ [entryKey toLocaleDateString e]) []

/-- A concrete stand-in for `toLocaleDateString` used on sample data:
entries within the same day number (unix epoch, 86400-second days) get
the same key. -/
def dayKey : Int → String := fun dt => toString (dt / 86400)

/-- Sample `data.list`: two samples on day 0 (temperatures 10° and
20°) and one on day 1 (5°) — the Forecast Aggregator test vector. -/
def forecastSample : List ForecastEntry :=
  [⟨0, 10, "sunny", 50, 2⟩, ⟨3600, 20, "sunny", 50, 2⟩, ⟨90000, 5, "rain", 60, 3⟩]

/-- The day-0 bucket that grouping `forecastSample` produces. -/
def sampleBucket : DailyForecast := ⟨dayKey 0, [10, 20], "sunny", 50, 2⟩

/-- The fields of the current-weather response that
`displayCurrentWeather` reads.  `visibility` is optional in the API
(`none` models the field being absent/`undefined`). -/
structure CurrentWeather where
  name : String
  country : String
  temp : ℚ
  feelsLike : ℚ
  description : String
  humidity : ℚ
  windSpeed : ℚ
  pressure : ℚ
  visibility : Option ℚ
  sunrise : Int
  sunset : Int
deriving DecidableEq

/-- The block printed by `displayCurrentWeather`, field per line;
`visibilityKm` is `some` exactly when the visibility line is printed,
holding the displayed `(visibility / 1000).toFixed(1)` value. -/
structure RenderedCurrent where
  name : String
  country : String
  temp : ℚ
  feelsLike : ℚ
  weather : String
  humidity : ℚ
  windSpeed : ℚ
  pressure : ℚ
  visibilityKm : Option ℚ
  sunrise : Int
  sunset : Int
deriving DecidableEq

/-- `displayCurrentWeather` (src/app.js:100-119).  The visibility line
is guarded by JS truthiness `if (data.visibility)`: an absent field
(`undefined`) and the number `0` are both falsy. -/
def displayCurrentWeather (data : CurrentWeather) : RenderedCurrent :=
  { name := data.name, country := data.country, temp := data.temp,
    feelsLike := data.feelsLike, weather := data.description,
    humidity := data.humidity, windSpeed := data.windSpeed, pressure := data.pressure,
    visibilityKm :=
      match data.visibility with
      | some v => if v ≠ 0 then some (toFixed1 (v / 1000)) else none
      | none => none,
    sunrise := data.sunrise, sunset := data.sunset }

/-! ## Theorems -/

/-- C5: the current-weather fetch fails with `CityNotFound` exactly on
upstream status 404, with `InvalidCredential` exactly on status 401,
with `FetchFailed` on any other failure (other statuses or a network
error), and returns the parsed body on success. -/
theorem getCurrentWeather_error_taxonomy {α : Type} (r : HttpOutcome α) :
    (getCurrentWeather r = .error .cityNotFound ↔ r = .httpError 404) ∧
    (getCurrentWeather r = .error .invalidCredential ↔ r = .httpError 401) ∧
    (∀ d : α, r = .success d → getCurrentWeather r = .ok d) ∧
    (∀ s : Nat, r = .httpError s → s ≠ 404 → s ≠ 401 →
      getCurrentWeather r = .error .fetchFailed) ∧
    (r = .networkError → getCurrentWeather r = .error .fetchFailed) := by
  refine ⟨?_, ?_, ?_, ?_, ?_⟩
  · cases r with
    | success d => simp [getCurrentWeather]
    | httpError s =>
        by_cases h4 : s = 404 <;> by_cases h1 : s = 401 <;>
          simp [getCurrentWeather, h4, h1]
    | networkError => simp [getCurrentWeather]
  · cases r with
    | success d => simp [getCurrentWeather]
    | httpError s =>
        by_cases h4 : s = 404 <;> by_cases h1 : s = 401 <;>
          simp [getCurrentWeather, h4, h1]
    | networkError => simp [getCurrentWeather]
  · rintro d rfl; rfl
  · rintro s rfl h4 h1; simp [getCurrentWeather, h4, h1]
  · rintro rfl; rfl

/-- Witness for `getCurrentWeather_error_taxonomy`: a 500 response
yields `FetchFailed`, a success returns its body. -/
theorem getCurrentWeather_error_taxonomy_witness :
    getCurrentWeather (.httpError 500 : HttpOutcome Nat) = .error .fetchFailed ∧
    getCurrentWeather (.success 7 : HttpOutcome Nat) = .ok 7 :=
  ⟨(getCurrentWeather_error_taxonomy (.httpError 500 : HttpOutcome Nat)).2.2.2.1
      500 rfl (by decide) (by decide),
   (getCurrentWeather_error_taxonomy (.success 7 : HttpOutcome Nat)).2.2.1 7 rfl⟩

/-- C6: the forecast fetch normalizes every failure — any status,
including the 404 and 401 the current-weather fetch distinguishes, and
network errors — to `FetchFailed`; success returns the body. -/
theorem getForecast_normalizes_failures {α : Type} (s : Nat) (d : α) :
    getForecast (.httpError s : HttpOutcome α) = .error .fetchFailed ∧
    getForecast (.networkError : HttpOutcome α) = .error .fetchFailed ∧
    getForecast (.success d) = .ok d ∧
    getForecast (.httpError 404 : HttpOutcome α) = .error .fetchFailed ∧
    getForecast (.httpError 401 : HttpOutcome α) = .error .fetchFailed ∧
    getCurrentWeather (.httpError 404 : HttpOutcome α) = .error .cityNotFound ∧
    getCurrentWeather (.httpError 401 : HttpOutcome α) = .error .invalidCredential :=
  ⟨rfl, rfl, rfl, rfl, rfl, by simp [getCurrentWeather], by simp [getCurrentWeather]⟩

/-- C7: loading the credential is total and fails soft — a missing
backing file and malformed JSON both give the absent result. -/
theorem loadApiKey_fails_soft :
    loadApiKey .missing = none ∧ loadApiKey .malformed = none :=
  ⟨rfl, rfl⟩

lemma decodeStrings_map_str (l : List String) :
    decodeStrings (l.map Json.str) = some l := by
  induction l with
  | nil => rfl
  | cons c cs ih => simp [decodeStrings, ih]

/-- C8: saving the favorites list and loading it back yields the same
list of cities, in the same order. -/
theorem saveFavoriteCities_roundtrip (cities : List String) :
    decodeFavorites (loadFavoriteCities (saveFavoriteCities cities)) = some cities := by
  show decodeFavorites (encodeFavorites cities) = some cities
  simpa [decodeFavorites, encodeFavorites] using decodeStrings_map_str cities

/-- C9: the visibility line is rendered iff the field is present and
non-zero (JS truthiness); when rendered it shows
`(visibility / 1000).toFixed(1)`, a value with one decimal place. -/
theorem displayCurrentWeather_visibility (data : CurrentWeather) :
    ((displayCurrentWeather data).visibilityKm = none ↔
        data.visibility = none ∨ data.visibility = some 0) ∧
    ∀ v : ℚ, data.visibility = some v → v ≠ 0 →
      (displayCurrentWeather data).visibilityKm = some (toFixed1 (v / 1000)) ∧
      ∃ n : ℤ, toFixed1 (v / 1000) = (n : ℚ) / 10 := by
  constructor
  · cases h : data.visibility with
    | none => simp [displayCurrentWeather, h]
    | some v => by_cases hv : v = 0 <;> simp [displayCurrentWeather, h, hv]
  · intro v hv hvz
    exact ⟨by simp [displayCurrentWeather, hv, hvz],
           ⟨⌊v / 1000 * 10 + 1/2⌋, rfl⟩⟩

/-- Witness for `displayCurrentWeather_visibility`: 10000 m of
visibility renders as 10.0 km. -/
theorem displayCurrentWeather_visibility_witness :
    (displayCurrentWeather
        ⟨"Tokyo", "JP", 20, 19, "clear", 40, 3, 1012, some 10000, 0, 0⟩).visibilityKm
      = some (toFixed1 ((10000 : ℚ) / 1000)) ∧
    ∃ n : ℤ, toFixed1 ((10000 : ℚ) / 1000) = (n : ℚ) / 10 :=
  (displayCurrentWeather_visibility
    ⟨"Tokyo", "JP", 20, 19, "clear", 40, 3, 1012, some 10000, 0, 0⟩).2
    10000 rfl (by norm_num)

/-- C3: `add` is an exact-match containment check; when absent the
city goes to the end (prefix untouched), duplicate-freeness is
preserved by both `add` and `remove`, and after adding a city the list
holds exactly one occurrence of it. -/
theorem addFavoriteCity_exact_append (s : AppState) (city : String)
    (h : s.favoriteCities.Nodup) :
    ((addFavoriteCity s city).1.favoriteCities =
      if city ∈ s.favoriteCities then s.favoriteCities
      else s.favoriteCities ++ [city]) ∧
    (addFavoriteCity s city).1.favoriteCities.Nodup ∧
    (addFavoriteCity s city).1.favoriteCities.count city = 1 ∧
    (removeFavoriteCity s city).1.favoriteCities.Nodup := by
  by_cases hm : city ∈ s.favoriteCities
  · refine ⟨by simp [addFavoriteCity, hm], ?_, ?_, ?_⟩
    · simpa [addFavoriteCity, hm] using h
    · simpa [addFavoriteCity, hm] using List.count_eq_one_of_mem h hm
    · simpa [removeFavoriteCity, hm] using h.erase city
  · refine ⟨by simp [addFavoriteCity, hm], ?_, ?_, ?_⟩
    · simp [addFavoriteCity, hm, List.nodup_append, h]
    · simp [addFavoriteCity, hm, List.count_append,
            List.count_eq_zero_of_not_mem hm]
    · simpa [removeFavoriteCity, hm] using h

/-- Witness for `addFavoriteCity_exact_append`: adding "Tokyo" to
`["Tokyo"]` keeps exactly one occurrence; adding it to `[]` appends. -/
theorem addFavoriteCity_exact_append_witness :
    (addFavoriteCity ⟨["Tokyo"], saveFavoriteCities ["Tokyo"]⟩ "Tokyo").1.favoriteCities.count
        "Tokyo" = 1 ∧
    (addFavoriteCity ⟨[], saveFavoriteCities []⟩ "Tokyo").1.favoriteCities =
      if "Tokyo" ∈ ([] : List String) then [] else [] ++ ["Tokyo"] :=
  ⟨(addFavoriteCity_exact_append ⟨["Tokyo"], saveFavoriteCities ["Tokyo"]⟩ "Tokyo"
      (by simp)).2.2.1,
   (addFavoriteCity_exact_append ⟨[], saveFavoriteCities []⟩ "Tokyo"
      (by simp)).1⟩

/-- C4: removing an absent city returns `notFound` and leaves the
whole state — in-memory list and backing file — untouched (no save);
removing a present city erases its first occurrence and flushes the
erased list to the file. -/
theorem removeFavoriteCity_not_found_no_save (s : AppState) (city : String) :
    (city ∉ s.favoriteCities → removeFavoriteCity s city = (s, .notFound)) ∧
    (city ∈ s.favoriteCities →
      (removeFavoriteCity s city).2 = .removed ∧
      (removeFavoriteCity s city).1.favoriteCities = s.favoriteCities.erase city ∧
      (removeFavoriteCity s city).1.favoritesFile =
        saveFavoriteCities (s.favoriteCities.erase city)) := by
  constructor
  · intro hm
    simp [removeFavoriteCity, hm]
  · intro hm
    simp [removeFavoriteCity, hm]

/-- Witness for `removeFavoriteCity_not_found_no_save`: Scenario B —
removing "Paris" from `["Tokyo", "London"]` changes nothing. -/
theorem removeFavoriteCity_not_found_no_save_witness :
    removeFavoriteCity ⟨["Tokyo", "London"], saveFavoriteCities ["Tokyo", "London"]⟩ "Paris" =
      (⟨["Tokyo", "London"], saveFavoriteCities ["Tokyo", "London"]⟩, .notFound) :=
  (removeFavoriteCity_not_found_no_save
    ⟨["Tokyo", "London"], saveFavoriteCities ["Tokyo", "London"]⟩ "Paris").1 (by decide)

lemma head?_dropWhile_not {α : Type} (p : α → Bool) (l : List α) :
    ∀ c, ((l.dropWhile p).head? = some c) → p c = false := by
  induction l with
  | nil => intro c h; simp [List.dropWhile] at h
  | cons a t ih =>
      intro c h
      rw [List.dropWhile_cons] at h
      by_cases hp : p a
      · rw [if_pos hp] at h; exact ih c h
      · rw [if_neg hp] at h
        simp only [List.head?_cons, Option.some.injEq] at h
        subst h; simpa using hp

/-- C10: the add-favorite menu handler ignores inputs that trim to
empty; otherwise it passes exactly the trimmed input to
`addFavoriteCity`, and that trimmed string is non-empty with no
leading or trailing whitespace character. -/
theorem handleAddFavorite_trims (s : AppState) (input : String) :
    (jsTrim input = "" → handleAddFavorite s input = s) ∧
    (jsTrim input ≠ "" →
      handleAddFavorite s input = (addFavoriteCity s (jsTrim input)).1 ∧
      (∀ c, (jsTrim input).data.head? = some c → isJsWs c = false) ∧
      (∀ c, (jsTrim input).data.getLast? = some c → isJsWs c = false)) := by
  constructor
  · intro h; simp [handleAddFavorite, h]
  · intro h
    refine ⟨by simp [handleAddFavorite, h], ?_, ?_⟩
    · intro c hc
      have hdata : (jsTrim input).data
          = ((input.data.dropWhile isJsWs).reverse.dropWhile isJsWs).reverse := rfl
      rw [hdata, List.head?_reverse] at hc
      -- the last element of a nonempty `dropWhile` suffix is the last
      -- element of the whole list
      have hsplit := List.takeWhile_append_dropWhile (p := isJsWs)
        (l := (input.data.dropWhile isJsWs).reverse)
      have hne : (input.data.dropWhile isJsWs).reverse.dropWhile isJsWs ≠ [] := by
        intro hnil; rw [hnil] at hc; simp at hc
      have : ((input.data.dropWhile isJsWs).reverse).getLast? = some c := by
        rw [← hsplit]
        rw [List.getLast?_append_of_ne_nil _ hne]
        exact hc
      rw [List.getLast?_reverse] at this
      exact head?_dropWhile_not isJsWs input.data c this
    · intro c hc
      have hdata : (jsTrim input).data
          = ((input.data.dropWhile isJsWs).reverse.dropWhile isJsWs).reverse := rfl
      rw [hdata, List.getLast?_reverse] at hc
      exact head?_dropWhile_not isJsWs (input.data.dropWhile isJsWs).reverse c hc

/-- Witness for `handleAddFavorite_trims`: input `"  Tokyo "` adds
exactly `jsTrim "  Tokyo "` (= `"Tokyo"`). -/
theorem handleAddFavorite_trims_witness :
    handleAddFavorite ⟨[], saveFavoriteCities []⟩ "  Tokyo " =
      (addFavoriteCity ⟨[], saveFavoriteCities []⟩ (jsTrim "  Tokyo ")).1 ∧
    jsTrim "  Tokyo " = "Tokyo" :=
  ⟨((handleAddFavorite_trims ⟨[], saveFavoriteCities []⟩ "  Tokyo ").2 (by decide)).1,
   by decide⟩

lemma find?_append_left {α : Type} (p : α → Bool) (l₁ l₂ : List α) {x : α}
    (h : l₁.find? p = some x) : (l₁ ++ l₂).find? p = some x := by
  rw [List.find?_append, h]; rfl

lemma find?_append_none {α : Type} (p : α → Bool) (l₁ l₂ : List α)
    (h : l₁.find? p = none) : (l₁ ++ l₂).find? p = l₂.find? p := by
  rw [List.find?_append, h, Option.none_or]

lemma dailyForecasts_append (fmt : Int → String) (es : List ForecastEntry)
    (e : ForecastEntry) :
    dailyForecasts fmt (es ++ [e]) =
      insertForecastEntry fmt (dailyForecasts fmt es) e := by
  simp [dailyForecasts, List.foldl_append]

lemma firstSeenKeys_append (fmt : Int → String) (es : List ForecastEntry)
    (e : ForecastEntry) :
    firstSeenKeys fmt (es ++ [e]) =
      if entryKey fmt e ∈ firstSeenKeys fmt es then firstSeenKeys fmt es
      else firstSeenKeys fmt es ++ [entryKey fmt e] := by
  simp [firstSeenKeys, List.foldl_append]

lemma insertForecastEntry_found (fmt : Int → String) (acc : List DailyForecast)
    (e : ForecastEntry)
    (h : acc.any (fun b => b.date == entryKey fmt e) = true) :
    insertForecastEntry fmt acc e =
      acc.map (fun b =>
        if b.date == entryKey fmt e then { b with temps := b.temps ++ [e.temp] }
        else b) := by
  simp only [insertForecastEntry, h, if_true]

lemma insertForecastEntry_new (fmt : Int → String) (acc : List DailyForecast)
    (e : ForecastEntry)
    (h : acc.any (fun b => b.date == entryKey fmt e) = false) :
    insertForecastEntry fmt acc e =
      acc ++ [⟨entryKey fmt e, [e.temp], e.description, e.humidity, e.windSpeed⟩] := by
  simp only [insertForecastEntry, h, Bool.false_eq_true, if_false]

lemma any_date_iff (acc : List DailyForecast) (k : String) :
    acc.any (fun b => b.date == k) = true ↔ k ∈ acc.map DailyForecast.date := by
  simp [List.any_eq_true, List.mem_map]

lemma mem_firstSeenKeys (fmt : Int → String) (es : List ForecastEntry) :
    ∀ k, k ∈ firstSeenKeys fmt es ↔ ∃ e ∈ es, entryKey fmt e = k := by
  induction es using List.reverseRecOn with
  | nil => intro k; simp [firstSeenKeys]
  | append_singleton es e ih =>
      intro k
      rw [firstSeenKeys_append]
      by_cases hc : entryKey fmt e ∈ firstSeenKeys fmt es
      · rw [if_pos hc, ih k]
        constructor
        · rintro ⟨x, hx, hk⟩
          exact ⟨x, List.mem_append_left _ hx, hk⟩
        · rintro ⟨x, hx, hk⟩
          rcases List.mem_append.1 hx with hx | hx
          · exact ⟨x, hx, hk⟩
          · have hxe : x = e := by simpa using hx
            subst hxe
            obtain ⟨y, hy, hyk⟩ := (ih (entryKey fmt x)).1 hc
            exact ⟨y, hy, hyk.trans hk⟩
      · rw [if_neg hc]
        simp only [List.mem_append, List.mem_singleton, ih k]
        constructor
        · rintro (⟨x, hx, hk⟩ | hk)
          · exact ⟨x, Or.inl hx, hk⟩
          · exact ⟨e, Or.inr rfl, hk.symm⟩
        · rintro ⟨x, hx | hx, hk⟩
          · exact Or.inl ⟨x, hx, hk⟩
          · subst hx; exact Or.inr hk.symm

/-- The grouping invariant: the bucket keys are the first-seen date
keys in order, each bucket's temperatures are exactly the temperatures
of its day's entries in order, and each bucket's representative fields
come from the first entry of its day. -/
lemma dailyForecasts_invariant (fmt : Int → String) (es : List ForecastEntry) :
    ((dailyForecasts fmt es).map DailyForecast.date = firstSeenKeys fmt es) ∧
    ∀ b ∈ dailyForecasts fmt es,
      b.temps = (es.filter (fun x => entryKey fmt x == b.date)).map ForecastEntry.temp ∧
      ∃ e₀, es.find? (fun x => entryKey fmt x == b.date) = some e₀ ∧
        b.weather = e₀.description ∧ b.humidity = e₀.humidity ∧
        b.windSpeed = e₀.windSpeed := by
  induction es using List.reverseRecOn with
  | nil => exact ⟨rfl, by simp [dailyForecasts]⟩
  | append_singleton es e ih =>
      obtain ⟨ihKeys, ihContent⟩ := ih
      rw [dailyForecasts_append, firstSeenKeys_append]
      by_cases hmem : entryKey fmt e ∈ firstSeenKeys fmt es
      · -- the entry's day already has a bucket: only its temp is pushed
        have hany : (dailyForecasts fmt es).any
            (fun b => b.date == entryKey fmt e) = true := by
          rw [any_date_iff, ihKeys]; exact hmem
        rw [if_pos hmem, insertForecastEntry_found fmt _ e hany]
        constructor
        · rw [List.map_map]
          have hcomp : (DailyForecast.date ∘ fun b =>
              if b.date == entryKey fmt e then { b with temps := b.temps ++ [e.temp] }
              else b) = DailyForecast.date := by
            funext b; by_cases hb : b.date = entryKey fmt e <;> simp [hb]
          rw [hcomp, ihKeys]
        · intro b hb
          obtain ⟨b₀, hb₀, rfl⟩ := List.mem_map.1 hb
          obtain ⟨htemps, e₀, hfind, hw, hh, hws⟩ := ihContent b₀ hb₀
          by_cases hbd : b₀.date == entryKey fmt e
          · have hdate : b₀.date = entryKey fmt e := by simpa using hbd
            rw [if_pos hbd]
            constructor
            · show b₀.temps ++ [e.temp] = _
              rw [htemps, List.filter_append]
              have hfe : List.filter (fun x => entryKey fmt x == b₀.date) [e] = [e] := by
                simp [List.filter_cons, hdate]
              rw [hfe, List.map_append, List.map_cons, List.map_nil]
            · exact ⟨e₀, find?_append_left _ _ _ hfind, hw, hh, hws⟩
          · have hdate : b₀.date ≠ entryKey fmt e := by simpa using hbd
            rw [if_neg (by simpa using hbd)]
            constructor
            · rw [htemps, List.filter_append]
              have hfe : List.filter (fun x => entryKey fmt x == b₀.date) [e] = [] := by
                simp [List.filter_cons, Ne.symm hdate]
              rw [hfe, List.append_nil]
            · exact ⟨e₀, find?_append_left _ _ _ hfind, hw, hh, hws⟩
      · -- first entry of a new day: a fresh bucket is appended
        have hany : (dailyForecasts fmt es).any
            (fun b => b.date == entryKey fmt e) = false := by
          rw [← Bool.not_eq_true, any_date_iff, ihKeys]; exact hmem
        have hnone : ∀ x ∈ es, entryKey fmt x ≠ entryKey fmt e := by
          intro x hx hxk
          exact hmem ((mem_firstSeenKeys fmt es (entryKey fmt e)).2 ⟨x, hx, hxk⟩)
        rw [if_neg hmem, insertForecastEntry_new fmt _ e hany]
        constructor
        · rw [List.map_append, ihKeys]; rfl
        · intro b hb
          rcases List.mem_append.1 hb with hb | hb
          · -- old buckets are untouched by the new day's entry
            have hbd : b.date ≠ entryKey fmt e := by
              intro hEq
              apply hmem
              rw [← hEq, ← ihKeys]
              exact List.mem_map_of_mem _ hb
            obtain ⟨htemps, e₀, hfind, hw, hh, hws⟩ := ihContent b hb
            constructor
            · rw [htemps, List.filter_append]
              have hfe : List.filter (fun x => entryKey fmt x == b.date) [e] = [] := by
                simp [List.filter_cons, Ne.symm hbd]
              rw [hfe, List.append_nil]
            · exact ⟨e₀, find?_append_left _ _ _ hfind, hw, hh, hws⟩
          · -- the fresh bucket: its day's entries in `es ++ [e]` are `[e]`
            have hbe : b = ⟨entryKey fmt e, [e.temp], e.description,
                e.humidity, e.windSpeed⟩ := by simpa using hb
            subst hbe
            have hfes : List.filter (fun x => entryKey fmt x == entryKey fmt e) es = [] := by
              rw [List.filter_eq_nil_iff]
              intro x hx
              simpa using hnone x hx
            have hfind : List.find? (fun x => entryKey fmt x == entryKey fmt e) es = none := by
              rw [List.find?_eq_none]
              intro x hx
              simpa using hnone x hx
            constructor
            · show [e.temp] = _
              rw [List.filter_append, hfes, List.nil_append]
              simp [List.filter_cons]
            · refine ⟨e, ?_, rfl, rfl, rfl⟩
              rw [find?_append_none _ _ _ hfind]
              simp [List.find?]

/-- C1: the grouped forecast buckets are keyed by the entries'
locale-formatted dates in first-seen order; each bucket's
representative fields come from the first entry of its day
(later same-day entries contribute only their temperature); and the
presented output is the first 5 buckets in that order — fewer when
fewer distinct days occur, never more however many days the input
spans. -/
theorem displayForecast_grouping (fmt : Int → String) (entries : List ForecastEntry) :
    ((dailyForecasts fmt entries).map DailyForecast.date = firstSeenKeys fmt entries) ∧
    (∀ b ∈ dailyForecasts fmt entries,
      b.temps = (entries.filter (fun x => entryKey fmt x == b.date)).map ForecastEntry.temp ∧
      ∃ e₀, entries.find? (fun x => entryKey fmt x == b.date) = some e₀ ∧
        b.weather = e₀.description ∧ b.humidity = e₀.humidity ∧
        b.windSpeed = e₀.windSpeed) ∧
    displayForecast fmt entries =
      ((dailyForecasts fmt entries).take 5).map renderDailyForecast ∧
    (displayForecast fmt entries).length = min 5 (firstSeenKeys fmt entries).length := by
  obtain ⟨hkeys, hcontent⟩ := dailyForecasts_invariant fmt entries
  refine ⟨hkeys, hcontent, rfl, ?_⟩
  have hlen : (dailyForecasts fmt entries).length = (firstSeenKeys fmt entries).length := by
    rw [← hkeys, List.length_map]
  rw [displayForecast, List.length_map, List.length_take, hlen]

/-- Witness for `displayForecast_grouping`: the day-0 bucket of the
sample collects both day-0 temperatures, and its representative
fields come from the first day-0 entry. -/
theorem displayForecast_grouping_witness :
    sampleBucket.temps =
      (forecastSample.filter
        (fun x => entryKey dayKey x == sampleBucket.date)).map ForecastEntry.temp ∧
    ∃ e₀, forecastSample.find?
        (fun x => entryKey dayKey x == sampleBucket.date) = some e₀ ∧
      sampleBucket.weather = e₀.description ∧ sampleBucket.humidity = e₀.humidity ∧
      sampleBucket.windSpeed = e₀.windSpeed :=
  (displayForecast_grouping dayKey forecastSample).2.1 sampleBucket (by decide)

lemma foldl_min_choice (t : List ℚ) (h : ℚ) :
    t.foldl min h = h ∨ t.foldl min h ∈ t := by
  induction t generalizing h with
  | nil => exact Or.inl rfl
  | cons a t ih =>
      rw [List.foldl_cons]
      rcases ih (min h a) with hh | hm
      · rcases min_choice h a with h1 | h1
        · exact Or.inl (by rw [hh, h1])
        · exact Or.inr (by rw [hh, h1]; exact List.mem_cons_self a t)
      · exact Or.inr (List.mem_cons_of_mem a hm)

lemma foldl_min_le (t : List ℚ) (h : ℚ) :
    t.foldl min h ≤ h ∧ ∀ x ∈ t, t.foldl min h ≤ x := by
  induction t generalizing h with
  | nil => exact ⟨le_refl h, by simp⟩
  | cons a t ih =>
      rw [List.foldl_cons]
      obtain ⟨ih1, ih2⟩ := ih (min h a)
      refine ⟨le_trans ih1 (min_le_left h a), ?_⟩
      intro x hx
      rcases List.mem_cons.1 hx with rfl | hx
      · exact le_trans ih1 (min_le_right h x)
      · exact ih2 x hx

lemma listMin_spec (l : List ℚ) (h : l ≠ []) :
    listMin l ∈ l ∧ ∀ x ∈ l, listMin l ≤ x := by
  cases l with
  | nil => exact absurd rfl h
  | cons a t =>
      constructor
      · show t.foldl min a ∈ a :: t
        rcases foldl_min_choice t a with h1 | h1
        · rw [h1]; exact List.mem_cons_self a t
        · exact List.mem_cons_of_mem a h1
      · intro x hx
        show t.foldl min a ≤ x
        rcases List.mem_cons.1 hx with rfl | hx
        · exact (foldl_min_le t x).1
        · exact (foldl_min_le t a).2 x hx

lemma foldl_max_choice (t : List ℚ) (h : ℚ) :
    t.foldl max h = h ∨ t.foldl max h ∈ t := by
  induction t generalizing h with
  | nil => exact Or.inl rfl
  | cons a t ih =>
      rw [List.foldl_cons]
      rcases ih (max h a) with hh | hm
      · rcases max_choice h a with h1 | h1
        · exact Or.inl (by rw [hh, h1])
        · exact Or.inr (by rw [hh, h1]; exact List.mem_cons_self a t)
      · exact Or.inr (List.mem_cons_of_mem a hm)

lemma foldl_max_le (t : List ℚ) (h : ℚ) :
    h ≤ t.foldl max h ∧ ∀ x ∈ t, x ≤ t.foldl max h := by
  induction t generalizing h with
  | nil => exact ⟨le_refl h, by simp⟩
  | cons a t ih =>
      rw [List.foldl_cons]
      obtain ⟨ih1, ih2⟩ := ih (max h a)
      refine ⟨le_trans (le_max_left h a) ih1, ?_⟩
      intro x hx
      rcases List.mem_cons.1 hx with rfl | hx
      · exact le_trans (le_max_right h x) ih1
      · exact ih2 x hx

lemma listMax_spec (l : List ℚ) (h : l ≠ []) :
    listMax l ∈ l ∧ ∀ x ∈ l, x ≤ listMax l := by
  cases l with
  | nil => exact absurd rfl h
  | cons a t =>
      constructor
      · show t.foldl max a ∈ a :: t
        rcases foldl_max_choice t a with h1 | h1
        · rw [h1]; exact List.mem_cons_self a t
        · exact List.mem_cons_of_mem a h1
      · intro x hx
        show x ≤ t.foldl max a
        rcases List.mem_cons.1 hx with rfl | hx
        · exact (foldl_max_le t x).1
        · exact (foldl_max_le t a).2 x hx

/-- C2: every rendered forecast block shows `toFixed(1)` of the true
minimum and maximum over exactly its own bucket's temperature samples;
on the sample entries `[(day0,10°),(day0,20°),(day1,5°)]` grouping
yields 2 buckets and day 0 renders as the range 10.0–20.0. -/
theorem renderForecast_minmax (fmt : Int → String) (entries : List ForecastEntry) :
    (∀ r ∈ displayForecast fmt entries,
      ∃ b ∈ (dailyForecasts fmt entries).take 5,
        r = renderDailyForecast b ∧
        r.minTemp = toFixed1 (listMin b.temps) ∧
        r.maxTemp = toFixed1 (listMax b.temps) ∧
        b.temps ≠ [] ∧
        listMin b.temps ∈ b.temps ∧ (∀ t ∈ b.temps, listMin b.temps ≤ t) ∧
        listMax b.temps ∈ b.temps ∧ (∀ t ∈ b.temps, t ≤ listMax b.temps)) ∧
    (dailyForecasts dayKey forecastSample).length = 2 ∧
    (displayForecast dayKey forecastSample).head? =
      some ⟨dayKey 0, 10, 20, "sunny", 50, 2⟩ := by
  have h1 : dailyForecasts dayKey forecastSample =
      [sampleBucket, ⟨dayKey 90000, [5], "rain", 60, 3⟩] := by decide
  refine ⟨?_, by rw [h1]; rfl, ?_⟩
  case refine_2 =>
    simp only [displayForecast, h1]
    simp [sampleBucket, renderDailyForecast, listMin, listMax, toFixed1]
    norm_num
  intro r hr
  obtain ⟨b, hb, rfl⟩ := List.mem_map.1 hr
  have hbD : b ∈ dailyForecasts fmt entries := List.mem_of_mem_take hb
  obtain ⟨htemps, e₀, hfind, -, -, -⟩ := (dailyForecasts_invariant fmt entries).2 b hbD
  have hne : b.temps ≠ [] := by
    rw [htemps]
    have he₀ : e₀ ∈ entries.filter (fun x => entryKey fmt x == b.date) :=
      List.mem_filter.2 ⟨List.mem_of_find?_eq_some hfind,
        @List.find?_some ForecastEntry (fun x => entryKey fmt x == b.date) e₀ entries hfind⟩
    exact List.ne_nil_of_mem (List.mem_map_of_mem _ he₀)
  obtain ⟨hminmem, hminle⟩ := listMin_spec b.temps hne
  obtain ⟨hmaxmem, hmaxle⟩ := listMax_spec b.temps hne
  exact ⟨b, hb, rfl, rfl, rfl, hne, hminmem, hminle, hmaxmem, hmaxle⟩

/-- Witness for `renderForecast_minmax`: the rendered day-0 block of
the sample comes from its bucket with range over exactly `[10, 20]`. -/
theorem renderForecast_minmax_witness :
    ∃ b ∈ (dailyForecasts dayKey forecastSample).take 5,
      renderDailyForecast sampleBucket = renderDailyForecast b ∧
      (renderDailyForecast sampleBucket).minTemp = toFixed1 (listMin b.temps) ∧
      (renderDailyForecast sampleBucket).maxTemp = toFixed1 (listMax b.temps) ∧
      b.temps ≠ [] ∧
      listMin b.temps ∈ b.temps ∧ (∀ t ∈ b.temps, listMin b.temps ≤ t) ∧
      listMax b.temps ∈ b.temps ∧ (∀ t ∈ b.temps, t ≤ listMax b.temps) :=
  (renderForecast_minmax dayKey forecastSample).1
    (renderDailyForecast sampleBucket) (by
      have h1 : dailyForecasts dayKey forecastSample =
          [sampleBucket, ⟨dayKey 90000, [5], "rain", 60, 3⟩] := by decide
      simp [displayForecast, h1])

end WeatherApp
